import Mathlib

/-!
Verification of the document-ingestion adapter in `function_app.py`.

The repository is a single Azure-Functions Python file.  The embedding below
translates its core functions into Lean:

* `process_pdf`      — the PDF text extractor (lines 13-51 of the source);
* `process_skillset_content` — the content resolver (lines 53-104);
* the raw-text paginator (lines 85-97), embedded as `paginate`;
* `split_pdf` and `create_error_response` — the HTTP layer (lines 106-235).

Modelling choices:

* Python byte strings are `List Nat`; Python text strings are Lean `String`
  (with `List Char` for the character-level line-splitting of the paginator,
  since a Python `str` is a sequence of characters).
* The external PDF library (`fitz`) is a parameter `fitzOpen`: opening a byte
  stream either fails with a message (a raised exception) or yields the
  document, modelled as the list of its per-page extraction outcomes — each
  page either extracts to a text string or raises with a message.  The length
  of that list is `len(pdf_document)`.
* The external HTTP client (`requests.get`) is a parameter `httpGet`: a fetch
  either raises (`.error reason`) or returns a status code and a body.
* `base64.b64decode` is a parameter `b64` of the resolver; the concrete model
  `pyB64decode` of CPython's default (validate=False) decoder is defined below.
* The Python `(pages, error)` tuples always have exactly one component equal
  to `None` in every return statement of the source, so they are embedded as
  `Except String (List String)` (`.error msg` for `(None, msg)`, `.ok pages`
  for `(pages, None)`).
-/

deriving instance DecidableEq for Except

/-- A Python bytes value, one `Nat` per byte. -/
abbrev ByteSeq := List Nat

/-- The outcome of one page's `load_page` + `get_text` in the source:
either the extracted text or the message of the raised exception. -/
abbrev PageResult := Except String String

/-- An opened PDF document, as the extractor observes it: the list of its
per-page extraction outcomes, whose length is `len(pdf_document)`. -/
abbrev PdfDoc := List PageResult

/-- The `(pages, error)` result of the core functions (exactly one of the two
tuple components is `None` at every return site of the source). -/
abbrev Outcome := Except String (List String)

/-- Lines 39-40 of the source: text longer than 100000 characters is cut to
its first 100000 characters and the literal marker is appended. -/
def truncatePage (text : String) : String :=
  if text.length > 100000 then text.take 100000 ++ "... [content truncated]"
  else text

/-- Lines 35-45 of the source: one iteration of the page loop, for 0-based
index `idx`.  A successful extraction is truncated; a raised per-page
exception becomes the placeholder with the 1-indexed page number. -/
def renderPage (idx : Nat) : PageResult → String
  | .ok text => truncatePage text
  | .error e => "[Error extracting page " ++ toString (idx + 1) ++ ": " ++ e ++ "]"

/-- The page loop of lines 33-46, carrying the 0-based index `page_num`. -/
def enumPages (idx : Nat) : List PageResult → List String
  | [] => []
  | r :: rs => renderPage idx r :: enumPages (idx + 1) rs

/-- Lines 27-46 of the source: cap at `min(total, 300)` pages and run the
page loop over them. -/
def extractedPages (doc : PdfDoc) : List String :=
  enumPages 0 (doc.take (min doc.length 300))

/-- `process_pdf` (lines 13-51 of the source).  `fitzOpen` models
`fitz.open(stream=..., filetype="pdf")`: `.error e` is a raised exception.
The outer catch-all (lines 48-51) is unreachable in this model because no
other modelled operation raises. -/
def process_pdf (fitzOpen : ByteSeq → Except String PdfDoc)
    (pdf_bytes : ByteSeq) : Outcome :=
  if pdf_bytes.length < 100 then .error "PDF data too small to be valid"
  else
    match fitzOpen pdf_bytes with
    | .error e => .error ("Cannot open PDF document: " ++ e)
    | .ok doc => .ok (extractedPages doc)

/-! ## The raw-text paginator (lines 85-97 of the source)

Python's `content.split("\n")` and the accumulation loop are embedded at the
character-list level (`List Char`), matching Python's view of a `str` as a
sequence of characters. -/

/-- `content.split("\n")` of line 86: split a character sequence at every
newline.  Like Python's `str.split`, the result always has at least one
element, and a trailing newline yields a trailing empty line. -/
def splitNl : List Char → List (List Char)
  | [] => [[]]
  | c :: cs =>
    if c = '\n' then [] :: splitNl cs
    else
      match splitNl cs with
      | [] => [[c]]
      | p :: ps => (c :: p) :: ps

/-- The accumulation loop of lines 88-95: each line is appended to the
buffer re-terminated with a newline; a buffer longer than 5000 characters is
emitted as a page and reset; a non-empty final buffer is emitted. -/
def pagLoop : List (List Char) → List Char → List (List Char)
  | [], cur => if cur.isEmpty then [] else [cur]
  | l :: ls, cur =>
    let cur2 := cur ++ l ++ ['\n']
    if 5000 < cur2.length then cur2 :: pagLoop ls [] else pagLoop ls cur2

/-- The raw-text paginator: lines 86-95 of the source applied to the
character sequence of the content string. -/
def paginate (cs : List Char) : List (List Char) :=
  pagLoop (splitNl cs) []

/-- A line re-terminated with the newline that `split` removed (line 90). -/
def nlTerm (l : List Char) : List Char := l ++ ['\n']

/-- A chunk of consecutive lines rendered as one page: each line is
re-terminated with a newline and the results are concatenated. -/
def renderChunk (chunk : List (List Char)) : List Char :=
  (chunk.map nlTerm).flatten

/-- The input of the spec's pagination property: `"a\n" * 3000`. -/
def c4Input : List Char := (List.replicate 3000 (['a', '\n'] : List Char)).flatten

/-! ## The content resolver (lines 53-104 of the source) -/

/-- The content value taken from a pipeline record's `data.content`.  JSON
gives either a string or some non-string value (`null`, number, boolean,
array, object).  A non-string is observed by the resolver through exactly
two effects: its Python truthiness, and whether `len(content)` raises
`TypeError` in the logging f-string of line 57 (evaluated only when the
value is truthy, because of the `if content else 0` short-circuit).  The
`other` constructor carries the truthiness and, for a value without
`__len__` (number, boolean), the message of the `TypeError` that `len`
raises (`none` for sized values such as arrays and objects, whose `len`
succeeds).  Every non-string JSON value makes `base64.b64decode` raise
`TypeError`, so no further distinction is observable. -/
inductive ContentValue
  | str (s : String)
  | other (truthy : Bool) (lenRaises : Option String)
deriving DecidableEq

/-- Python truthiness of a content value (`if not content`, `if content`). -/
def ContentValue.truthy : ContentValue → Bool
  | .str s => !(s == "")
  | .other t _ => t

/-- `content.startswith(pre)`: the first `len(pre)` characters equal `pre`. -/
def pyStartswith (s pre : String) : Bool :=
  s.data.take pre.data.length == pre.data

/-- The result of `requests.get(content, timeout=30)` (line 64): either a
raised exception with its message, or a status code and a response body. -/
abbrev FetchResult := Except String (Nat × ByteSeq)

/-- The URL branch of the resolver (lines 61-73 of the source). -/
def urlFetch (httpGet : String → FetchResult)
    (fitzOpen : ByteSeq → Except String PdfDoc) (content : String) : Outcome :=
  match httpGet content with
  | .ok (code, body) =>
    if code = 200 then process_pdf fitzOpen body
    else .error ("Failed to download from URL: status code " ++ toString code)
  | .error e => .error ("Error downloading from URL: " ++ e)

/-- The `except` branch of lines 80-99 of the source: the content was not a
URL and `base64.b64decode` raised, so the content is treated as raw text.
The guard `if content and isinstance(content, str)` admits exactly the
non-empty strings; everything else yields the error. -/
def rawBranch : ContentValue → Outcome
  | .str s =>
    if s = "" then .error "Invalid or empty content"
    else .ok ((paginate s.data).map (fun p => String.mk p))
  | .other _ _ => .error "Invalid or empty content"

/-- `process_skillset_content` (lines 53-104 of the source).  `b64` models
`base64.b64decode` on strings, returning `none` when it raises.  The first
observable step is the logging f-string of line 57: `len(content) if
content else 0` raises `TypeError` on a truthy value without `__len__`,
which the catch-all of lines 101-104 turns into `"Error processing
content: <reason>"`.  Otherwise classification proceeds: a non-string
skips the URL test (`isinstance` fails), makes `b64decode` raise
`TypeError`, and lands in `rawBranch` just as a string that fails to
decode does.  Strings never raise at line 57, so for them the catch-all is
unreachable. -/
def process_skillset_content (b64 : String → Option ByteSeq)
    (httpGet : String → FetchResult)
    (fitzOpen : ByteSeq → Except String PdfDoc) : ContentValue → Outcome
  | .str s =>
    if pyStartswith s "http" || pyStartswith s "https" then
      urlFetch httpGet fitzOpen s
    else
      match b64 s with
      | some pdf_bytes => process_pdf fitzOpen pdf_bytes
      | none => rawBranch (.str s)
  | .other t lenRaises =>
    match lenRaises with
    | some msg =>
      if t then .error ("Error processing content: " ++ msg)
      else rawBranch (.other t lenRaises)
    | none => rawBranch (.other t lenRaises)

/-! ## A model of CPython `base64.b64decode` (default `validate=False`) -/

/-- The standard base64 alphabet, in value order. -/
def b64Alphabet : List Char :=
  "ABCDEFGHIJKLMNOPQRSTUVWXYZabcdefghijklmnopqrstuvwxyz0123456789+/".data

/-- The 6-bit value of a base64 alphabet character. -/
def b64Val (c : Char) : Nat := b64Alphabet.indexOf c

/-- Decode 6-bit groups of four characters into three bytes; a final group
of two or three characters yields one or two bytes when padding was seen,
and raises (`none`) otherwise; a final group of one character always
raises. -/
def decodeGroups : List Char → Bool → Option ByteSeq
  | [], _ => some []
  | [_], _ => none
  | [a, b], pad =>
    if pad then some [b64Val a * 4 + b64Val b / 16] else none
  | [a, b, c], pad =>
    if pad then
      some [b64Val a * 4 + b64Val b / 16, b64Val b % 16 * 16 + b64Val c / 4]
    else none
  | a :: b :: c :: d :: rest, pad =>
    match decodeGroups rest pad with
    | some bs =>
      some ([b64Val a * 4 + b64Val b / 16, b64Val b % 16 * 16 + b64Val c / 4,
             b64Val c % 4 * 64 + b64Val d] ++ bs)
    | none => none

/-- Model of CPython `base64.b64decode` with its default `validate=False`.
A `str` argument is first encoded with `s.encode('ascii')`, which raises
`ValueError` on any non-ASCII character; then bytes outside the base64
alphabet and `=` are discarded before decoding; the characters before the
first `=` are decoded in 6-bit groups; a short final group is accepted
exactly when a padding character was present.  `none` models a raised
exception (`ValueError` or `binascii.Error`).  In particular the empty
string (and any ASCII string of only non-alphabet characters, e.g.
whitespace) decodes successfully to the empty byte string. -/
def pyB64decode (s : String) : Option ByteSeq :=
  if s.data.all (fun c => c.toNat < 128) then
    let kept := s.data.filter (fun c => b64Alphabet.contains c || c == '=')
    let core := kept.takeWhile (fun c => c != '=')
    decodeGroups core (decide (core.length < kept.length))
  else none

/-! ## The HTTP layer (lines 106-235 of the source) -/

/-- The `data` dictionary of a pipeline record: `content` may be absent
(`values[0]['data'].get('content', '')` then yields `''`). -/
structure RecordData where
  content : Option ContentValue
deriving DecidableEq

/-- One element of the request's `values` array. -/
structure SkillRecord where
  recordId : Option String
  data : Option RecordData
deriving DecidableEq

/-- The parsed JSON body: the `values` key may be absent. -/
structure PipelineRequest where
  values : Option (List SkillRecord)
deriving DecidableEq

/-- An incoming request: its `Content-Type` header value, the result of
`req.get_json()` (`.error` models the `ValueError` of malformed JSON), and
the raw body bytes used by the direct mode. -/
structure HttpRequest where
  contentType : String
  json : Except Unit PipelineRequest
  rawBody : ByteSeq
deriving DecidableEq

/-- One record of a response envelope: either a `data.pages` payload or an
`errors` list. -/
inductive PRecordBody
  | pagesData (pages : List String)
  | errors (msgs : List String)
deriving DecidableEq

/-- One element of a response envelope's `values` array. -/
structure PRecord where
  recordId : String
  body : PRecordBody
deriving DecidableEq

/-- The body of an HTTP response: a pipeline envelope
`{"values": [...]}`, a direct-mode page list
`{"pages": [{"page_number": ..., "content": ...}]}`, or plain text. -/
inductive RespBody
  | pipeline (records : List PRecord)
  | directOk (pages : List (Nat × String))
  | plainText (msg : String)
deriving DecidableEq

/-- An HTTP response: status code and body. -/
structure HttpResponse where
  status : Nat
  body : RespBody
deriving DecidableEq

/-- `create_error_response` (lines 221-235 of the source).  The
`func.HttpResponse` is built without a `status_code` argument, and Azure's
`HttpResponse` defaults to status 200. -/
def create_error_response (record_id error_message : String) : HttpResponse :=
  { status := 200, body := .pipeline [⟨record_id, .errors [error_message]⟩] }

/-- Python's `needle in hay` on strings: `needle` occurs as a contiguous
substring of `hay`. -/
def listContains (needle : List Char) : List Char → Bool
  | [] => needle.isEmpty
  | c :: rest => needle.isPrefixOf (c :: rest) || listContains needle rest

/-- `'application/json' in content_type` (line 119 of the source). -/
def hasJsonCT (ct : String) : Bool := listContains "application/json".data ct.data

/-- The 1-indexed page list of the direct-mode response (line 196). -/
def numberPages : Nat → List String → List (Nat × String)
  | _, [] => []
  | i, c :: cs => (i + 1, c) :: numberPages (i + 1) cs

/-- `split_pdf` (lines 106-219 of the source).  The catch-all of lines
203-219 is unreachable in this model because every modelled operation is
total.  Responses built without `status_code` get Azure's default 200. -/
def split_pdf (b64 : String → Option ByteSeq) (httpGet : String → FetchResult)
    (fitzOpen : ByteSeq → Except String PdfDoc) (req : HttpRequest) : HttpResponse :=
  if hasJsonCT req.contentType then
    match req.json with
    | .error _ =>
      { status := 400, body := .pipeline [⟨"0", .errors ["Invalid JSON in request"]⟩] }
    | .ok request_json =>
      match request_json.values with
      | some (v0 :: _) =>
        let record_id := v0.recordId.getD "0"
        match v0.data with
        | none => create_error_response record_id "No data field in request"
        | some d =>
          let content := d.content.getD (.str "")
          if !content.truthy then
            create_error_response record_id "No content provided in request"
          else
            match process_skillset_content b64 httpGet fitzOpen content with
            | .error e => create_error_response record_id e
            | .ok pages =>
              { status := 200, body := .pipeline [⟨record_id, .pagesData pages⟩] }
      | _ =>
        { status := 400,
          body := .pipeline
            [⟨"0", .errors ["Invalid request format: missing \x27values\x27 array"]⟩] }
  else
    if req.rawBody.length = 0 then
      { status := 400, body := .plainText "No PDF data received in request body." }
    else
      match process_pdf fitzOpen req.rawBody with
      | .error e => { status := 500, body := .plainText ("Error: " ++ e) }
      | .ok pages => { status := 200, body := .directOk (numberPages 0 pages) }

/-! ## Concrete test fixtures used by witnesses and counterexamples -/

/-- A PDF opener that always raises. -/
def fitzErr : ByteSeq → Except String PdfDoc := fun _ => .error "broken"

/-- An HTTP client whose every fetch raises. -/
def getErr : String → FetchResult := fun _ => .error "offline"

/-- One hundred zero bytes: long enough to pass the size sanity filter. -/
def bytes100 : ByteSeq := List.replicate 100 0

/-- A 301-page document whose pages all extract to `"x"`. -/
def doc301 : PdfDoc := List.replicate 301 (.ok "x")

/-- A PDF opener yielding `doc301` for every input. -/
def fitz301 : ByteSeq → Except String PdfDoc := fun _ => .ok doc301

/-- A one-page document whose page extracts to `"hi"`. -/
def docHi : PdfDoc := [.ok "hi"]

/-- A PDF opener yielding `docHi` for every input. -/
def fitzHi : ByteSeq → Except String PdfDoc := fun _ => .ok docHi

/-- A three-page document whose middle page raises `"boom"`. -/
def docMix : PdfDoc := [.ok "alpha", .error "boom", .ok "beta"]

/-- A PDF opener yielding `docMix` for every input. -/
def fitzMix : ByteSeq → Except String PdfDoc := fun _ => .ok docMix

/-- A pipeline request whose single record has no `data` field. -/
def reqNoData : HttpRequest :=
  ⟨"application/json", .ok ⟨some [⟨some "r1", none⟩]⟩, []⟩

/-- A pipeline request with malformed JSON. -/
def reqBadJson : HttpRequest := ⟨"application/json", .error (), []⟩

/-- A pipeline request whose JSON has no `values` key. -/
def reqNoValues : HttpRequest := ⟨"application/json", .ok ⟨none⟩, []⟩

/-- A pipeline request whose single record has a `data` field without
`content`. -/
def reqNoContent : HttpRequest :=
  ⟨"application/json", .ok ⟨some [⟨none, some ⟨none⟩⟩]⟩, []⟩

/-! # Theorems -/

/-! ## The PDF extractor -/

theorem enumPages_length (rs : List PageResult) :
    ∀ idx, (enumPages idx rs).length = rs.length := by
  induction rs with
  | nil => intro idx; rfl
  | cons r rs ih => intro idx; simp [enumPages, ih]

theorem enumPages_get? (rs : List PageResult) :
    ∀ idx j, (enumPages idx rs).get? j = (rs.get? j).map (renderPage (idx + j)) := by
  induction rs with
  | nil => intro idx j; cases j <;> rfl
  | cons r rs ih =>
    intro idx j
    cases j with
    | zero => rfl
    | succ j =>
      have harith : idx + 1 + j = idx + (j + 1) := by omega
      simp only [enumPages, List.get?_cons_succ, ih (idx + 1) j, harith]

theorem extractedPages_length (doc : PdfDoc) :
    (extractedPages doc).length = min doc.length 300 := by
  simp [extractedPages, enumPages_length, List.length_take, Nat.min_comm]

theorem extractedPages_get? (doc : PdfDoc) (j : Nat) (hj : j < min doc.length 300) :
    (extractedPages doc).get? j = (doc.get? j).map (renderPage j) := by
  have h := enumPages_get? (doc.take (min doc.length 300)) 0 j
  simp only [extractedPages, h, Nat.zero_add]
  rw [List.get?_take]
  omega

theorem process_pdf_ok (fitzOpen : ByteSeq → Except String PdfDoc)
    (pdf_bytes : ByteSeq) (doc : PdfDoc)
    (hlen : ¬ pdf_bytes.length < 100) (hopen : fitzOpen pdf_bytes = .ok doc) :
    process_pdf fitzOpen pdf_bytes = .ok (extractedPages doc) := by
  simp [process_pdf, hlen, hopen]

/-! ## The paginator -/

theorem splitNl_ne_nil (cs : List Char) : splitNl cs ≠ [] := by
  induction cs with
  | nil => simp [splitNl]
  | cons c cs ih =>
    by_cases h : c = '\n'
    · simp [splitNl, h]
    · simp only [splitNl, if_neg h]
      cases hsp : splitNl cs with
      | nil => simp
      | cons p ps => simp

theorem splitNl_join (cs : List Char) :
    ((splitNl cs).map nlTerm).flatten = cs ++ ['\n'] := by
  induction cs with
  | nil => simp [splitNl, nlTerm]
  | cons c cs ih =>
    by_cases h : c = '\n'
    · simp [splitNl, h, nlTerm, ih]
    · simp only [splitNl, if_neg h]
      cases hsp : splitNl cs with
      | nil => exact absurd hsp (splitNl_ne_nil cs)
      | cons p ps =>
        rw [hsp] at ih
        simp only [List.map_cons, List.flatten_cons, nlTerm, List.cons_append,
          List.append_assoc] at ih ⊢
        rw [ih]

theorem pagLoop_join (ls : List (List Char)) :
    ∀ cur, (pagLoop ls cur).flatten = cur ++ (ls.map nlTerm).flatten := by
  induction ls with
  | nil =>
    intro cur
    simp only [pagLoop]
    split
    · simp_all [List.isEmpty_iff]
    · simp
  | cons l ls ih =>
    intro cur
    simp only [pagLoop]
    split
    · simp [ih, nlTerm]
    · simp [ih, nlTerm]

/-- Concatenating all pages of the paginator reproduces the input plus one
extra trailing newline (the `split`/re-terminate round trip of lines 86-90
appends a newline to the final line even when the input had none). -/
theorem paginate_join (cs : List Char) :
    (paginate cs).flatten = cs ++ ['\n'] := by
  rw [paginate, pagLoop_join, splitNl_join]
  rfl

theorem pagLoop_ne_nil (ls : List (List Char)) :
    ∀ cur, cur ≠ [] → pagLoop ls cur ≠ [] := by
  induction ls with
  | nil =>
    intro cur hcur
    simp only [pagLoop]
    split
    · simp_all [List.isEmpty_iff]
    · simp
  | cons l ls ih =>
    intro cur _
    simp only [pagLoop]
    split
    · simp
    · exact ih (cur ++ l ++ ['\n']) (by simp)

/-- The paginator never returns zero pages: the final line always
contributes at least its terminating newline. -/
theorem paginate_ne_nil (cs : List Char) : paginate cs ≠ [] := by
  intro h
  have hj := paginate_join cs
  rw [h] at hj
  simp at hj

theorem renderChunk_append (a b : List (List Char)) :
    renderChunk (a ++ b) = renderChunk a ++ renderChunk b := by
  simp [renderChunk]

theorem renderChunk_ne_nil (chunk : List (List Char)) (h : chunk ≠ []) :
    renderChunk chunk ≠ [] := by
  cases chunk with
  | nil => exact absurd rfl h
  | cons l ls => simp [renderChunk, nlTerm]

/-- Every run of the accumulation loop groups the incoming lines into
consecutive chunks: each emitted page is the concatenation of the
newline-re-terminated lines of one chunk, and the chunks partition the line
list in order. -/
theorem pagLoop_chunks (ls : List (List Char)) :
    ∀ acc, ∃ chunks : List (List (List Char)),
      chunks.flatten = acc ++ ls ∧
      pagLoop ls (renderChunk acc) = chunks.map renderChunk := by
  induction ls with
  | nil =>
    intro acc
    by_cases hacc : acc = []
    · exact ⟨[], by simp [hacc], by simp [hacc, renderChunk, pagLoop]⟩
    · refine ⟨[acc], by simp, ?_⟩
      simp only [pagLoop]
      rw [if_neg (by simpa [List.isEmpty_iff] using renderChunk_ne_nil acc hacc)]
      simp
  | cons l ls ih =>
    intro acc
    have hcur2 : renderChunk acc ++ l ++ ['\n'] = renderChunk (acc ++ [l]) := by
      simp [renderChunk_append, renderChunk, nlTerm]
    simp only [pagLoop]
    split
    · obtain ⟨chunks, h1, h2⟩ := ih []
      refine ⟨(acc ++ [l]) :: chunks, ?_, ?_⟩
      · simp [h1]
      · have hnil : renderChunk ([] : List (List Char)) = [] := rfl
        rw [hnil] at h2
        simp only [List.map_cons, h2, hcur2]
    · obtain ⟨chunks, h1, h2⟩ := ih (acc ++ [l])
      refine ⟨chunks, ?_, ?_⟩
      · simp [h1]
      · rw [hcur2, h2]

/-- Paginator pages are whole-line groupings: there is a partition of the
input's lines into consecutive chunks such that each page is its chunk's
lines, each re-terminated with a newline and concatenated. -/
theorem paginate_chunks (cs : List Char) :
    ∃ chunks : List (List (List Char)),
      chunks.flatten = splitNl cs ∧
      paginate cs = chunks.map renderChunk := by
  have h := pagLoop_chunks (splitNl cs) []
  simpa [paginate, renderChunk] using h

theorem splitNl_replicate (n : Nat) :
    splitNl ((List.replicate n (['a', '\n'] : List Char)).flatten) =
      List.replicate n ['a'] ++ [[]] := by
  induction n with
  | zero => rfl
  | succ n ih => simp [List.replicate_succ, splitNl, ih]

theorem c4Input_lines : splitNl c4Input = List.replicate 3000 ['a'] ++ [[]] :=
  splitNl_replicate 3000

theorem c4Input_length : c4Input.length = 6000 := by
  rw [c4Input, List.length_flatten, List.map_replicate, List.sum_replicate]
  norm_num

theorem c4Input_line_bound : ∀ l ∈ splitNl c4Input, l.length ≤ 1 := by
  rw [c4Input_lines]
  intro l hl
  rcases List.mem_append.mp hl with h | h
  · rw [List.eq_of_mem_replicate h]
    decide
  · simp only [List.mem_singleton] at h
    subst h
    decide

theorem pagLoop_page_bound (ls : List (List Char)) (bd : Nat)
    (hls : ∀ l ∈ ls, l.length ≤ bd) :
    ∀ cur, cur.length ≤ 5000 →
      ∀ p ∈ pagLoop ls cur, p.length ≤ 5001 + bd := by
  induction ls with
  | nil =>
    intro cur hcur p hp
    simp only [pagLoop] at hp
    by_cases h : cur.isEmpty
    · rw [if_pos h] at hp; simp at hp
    · rw [if_neg h] at hp
      simp only [List.mem_singleton] at hp
      subst hp
      omega
  | cons l ls ih =>
    intro cur hcur p hp
    have hl : l.length ≤ bd := hls l (by simp)
    have hrest : ∀ x ∈ ls, x.length ≤ bd := fun x hx => hls x (by simp [hx])
    simp only [pagLoop] at hp
    by_cases h : 5000 < (cur ++ l ++ ['\n']).length
    · rw [if_pos h] at hp
      rcases List.mem_cons.mp hp with heq | hmem
      · subst heq
        simp only [List.length_append, List.length_cons, List.length_nil]
        omega
      · exact ih hrest [] (by simp) p hmem
    · rw [if_neg h] at hp
      exact ih hrest (cur ++ l ++ ['\n']) (by omega) p hp

theorem paginate_c4_pages_bound : ∀ p ∈ paginate c4Input, p.length ≤ 5002 := by
  have h := pagLoop_page_bound (splitNl c4Input) 1 c4Input_line_bound [] (by simp)
  simpa [paginate] using h

theorem paginate_c4_two_pages : 2 ≤ (paginate c4Input).length := by
  cases hp : paginate c4Input with
  | nil => exact absurd hp (paginate_ne_nil c4Input)
  | cons p ps =>
    cases ps with
    | nil =>
      exfalso
      have hj := paginate_join c4Input
      rw [hp] at hj
      simp only [List.flatten_cons, List.flatten_nil, List.append_nil] at hj
      have hb := paginate_c4_pages_bound p (by rw [hp]; simp)
      have hlen : p.length = 6001 := by
        rw [hj]
        simp [c4Input_length]
      omega
    | cons q qs => simp

/-! ## The resolver -/

/-- A string that starts with `"https"` also starts with `"http"`, so the
disjunction of line 60 of the source is equivalent to its first test. -/
theorem pyStartswith_https_http (s : String) (h : pyStartswith s "https" = true) :
    pyStartswith s "http" = true := by
  have h5 : s.data.take 5 = "https".data := by
    have h' := h
    simp only [pyStartswith, beq_iff_eq] at h'
    exact h'
  have h4 : s.data.take 4 = "http".data := by
    have ht : s.data.take 4 = (s.data.take 5).take 4 := by
      rw [List.take_take]
      norm_num
    rw [ht, h5]
    decide
  simp only [pyStartswith, beq_iff_eq]
  exact h4

/-! ## Claim theorems -/

/-- C9: for every byte input whose length is less than 100, `process_pdf`
returns no pages and exactly the error "PDF data too small to be valid".
The quantification over every `fitzOpen` expresses that the document is
never opened: the result does not depend on the PDF library at all. -/
theorem C9_small_input (fitzOpen : ByteSeq → Except String PdfDoc)
    (pdf_bytes : ByteSeq) (h : pdf_bytes.length < 100) :
    process_pdf fitzOpen pdf_bytes = .error "PDF data too small to be valid" := by
  simp [process_pdf, h]

theorem C9_witness :
    ([] : ByteSeq).length < 100 ∧
    process_pdf fitzErr [] = .error "PDF data too small to be valid" :=
  ⟨by decide, C9_small_input fitzErr [] (by decide)⟩

/-- C3: for every PDF that opens successfully with N total pages,
`process_pdf` returns exactly `min N 300` pages with no top-level error, in
document order, and never more than 300 pages. -/
theorem C3_page_cap (fitzOpen : ByteSeq → Except String PdfDoc)
    (pdf_bytes : ByteSeq) (doc : PdfDoc)
    (hlen : ¬ pdf_bytes.length < 100) (hopen : fitzOpen pdf_bytes = .ok doc) :
    ∃ pages, process_pdf fitzOpen pdf_bytes = .ok pages ∧
      pages.length = min doc.length 300 ∧
      pages.length ≤ 300 ∧
      ∀ j, j < min doc.length 300 →
        pages.get? j = (doc.get? j).map (renderPage j) := by
  refine ⟨extractedPages doc, process_pdf_ok _ _ _ hlen hopen,
    extractedPages_length doc, ?_, fun j hj => extractedPages_get? doc j hj⟩
  rw [extractedPages_length]
  omega

theorem C3_witness :
    (¬ bytes100.length < 100) ∧ fitz301 bytes100 = .ok doc301 ∧
    ∃ pages, process_pdf fitz301 bytes100 = .ok pages ∧
      pages.length = min doc301.length 300 ∧
      pages.length ≤ 300 ∧
      ∀ j, j < min doc301.length 300 →
        pages.get? j = (doc301.get? j).map (renderPage j) :=
  ⟨by decide, rfl, C3_page_cap fitz301 bytes100 doc301 (by decide) rfl⟩

/-- C5: for every page whose extracted text exceeds 100000 characters,
`process_pdf` returns its first 100000 characters followed by the literal
marker; every page with at most 100000 characters is returned verbatim. -/
theorem C5_truncation (fitzOpen : ByteSeq → Except String PdfDoc)
    (pdf_bytes : ByteSeq) (doc : PdfDoc) (j : Nat) (t : String)
    (hlen : ¬ pdf_bytes.length < 100) (hopen : fitzOpen pdf_bytes = .ok doc)
    (hj : doc.get? j = some (.ok t)) (hj300 : j < 300) :
    ∃ pages, process_pdf fitzOpen pdf_bytes = .ok pages ∧
      (100000 < t.length →
        pages.get? j = some (t.take 100000 ++ "... [content truncated]")) ∧
      (t.length ≤ 100000 → pages.get? j = some t) := by
  refine ⟨extractedPages doc, process_pdf_ok _ _ _ hlen hopen, ?_, ?_⟩ <;>
  · intro ht
    obtain ⟨hjlen, -⟩ := List.get?_eq_some.mp hj
    have hget := extractedPages_get? doc j (by omega)
    rw [hj] at hget
    rw [hget]
    simp only [Option.map, renderPage, truncatePage]
    first
      | rw [if_pos ht]
      | rw [if_neg (by omega)]

theorem C5_witness :
    (¬ bytes100.length < 100) ∧ fitzHi bytes100 = .ok docHi ∧
    (docHi.get? 0 = some (.ok "hi")) ∧ 0 < 300 ∧
    ∃ pages,
      process_pdf fitzHi bytes100 = .ok pages ∧
      (100000 < "hi".length →
        pages.get? 0 = some ("hi".take 100000 ++ "... [content truncated]")) ∧
      ("hi".length ≤ 100000 → pages.get? 0 = some "hi") :=
  ⟨by decide, rfl, rfl, by decide,
    C5_truncation fitzHi bytes100 docHi 0 "hi" (by decide) rfl rfl (by decide)⟩

/-- C1: if the document opens and extraction of the page at index K raises,
`process_pdf` still returns `min total 300` pages and no top-level error;
position K holds the placeholder with the 1-indexed page number and the
failure reason, and every other successfully extracted (untruncated) page is
returned unchanged. -/
theorem C1_page_fault_isolation (fitzOpen : ByteSeq → Except String PdfDoc)
    (pdf_bytes : ByteSeq) (doc : PdfDoc) (K : Nat) (reason : String)
    (hlen : ¬ pdf_bytes.length < 100) (hopen : fitzOpen pdf_bytes = .ok doc)
    (hK : doc.get? K = some (.error reason)) (hK300 : K < 300) :
    ∃ pages, process_pdf fitzOpen pdf_bytes = .ok pages ∧
      pages.length = min doc.length 300 ∧
      pages.get? K =
        some ("[Error extracting page " ++ toString (K + 1) ++ ": " ++ reason ++ "]") ∧
      ∀ j t, j ≠ K → j < 300 → doc.get? j = some (.ok t) → t.length ≤ 100000 →
        pages.get? j = some t := by
  refine ⟨extractedPages doc, process_pdf_ok _ _ _ hlen hopen,
    extractedPages_length doc, ?_, ?_⟩
  · obtain ⟨hKlen, -⟩ := List.get?_eq_some.mp hK
    have hget := extractedPages_get? doc K (by omega)
    rw [hK] at hget
    rw [hget]
    rfl
  · intro j t _ hj300 hj ht
    obtain ⟨hjlen, -⟩ := List.get?_eq_some.mp hj
    have hget := extractedPages_get? doc j (by omega)
    rw [hj] at hget
    rw [hget]
    simp only [Option.map, renderPage, truncatePage]
    rw [if_neg (by omega)]

theorem C1_witness :
    (¬ bytes100.length < 100) ∧ fitzMix bytes100 = .ok docMix ∧
    (docMix.get? 1 = some (.error "boom")) ∧ 1 < 300 ∧
    ∃ pages,
      process_pdf fitzMix bytes100 = .ok pages ∧
      pages.length = min docMix.length 300 ∧
      pages.get? 1 = some ("[Error extracting page " ++ toString (1 + 1) ++ ": " ++
        "boom" ++ "]") ∧
      ∀ j t, j ≠ 1 → j < 300 → docMix.get? j = some (.ok t) →
        t.length ≤ 100000 → pages.get? j = some t :=
  ⟨by decide, rfl, rfl, by decide,
    C1_page_fault_isolation fitzMix bytes100 docMix 1 "boom" (by decide) rfl rfl
      (by decide)⟩

/-- C2: classification precedence of the resolver for every string content.
A string beginning with `"http"` is routed to URL fetch regardless of the
base64 decoder (in particular even when decoding would succeed); otherwise a
successfully decoded string is forwarded to the PDF extractor; otherwise the
string goes to the raw-text branch. -/
theorem C2_content_classification (b64 : String → Option ByteSeq)
    (httpGet : String → FetchResult) (fitzOpen : ByteSeq → Except String PdfDoc)
    (s : String) :
    (pyStartswith s "http" = true →
      process_skillset_content b64 httpGet fitzOpen (.str s) =
        urlFetch httpGet fitzOpen s) ∧
    (pyStartswith s "http" = false → ∀ bs, b64 s = some bs →
      process_skillset_content b64 httpGet fitzOpen (.str s) =
        process_pdf fitzOpen bs) ∧
    (pyStartswith s "http" = false → b64 s = none →
      process_skillset_content b64 httpGet fitzOpen (.str s) =
        rawBranch (.str s)) := by
  have hs : pyStartswith s "http" = false → pyStartswith s "https" = false := by
    intro h
    cases hx : pyStartswith s "https"
    · rfl
    · rw [pyStartswith_https_http s hx] at h
      exact absurd h (by simp)
  refine ⟨?_, ?_, ?_⟩
  · intro h
    simp [process_skillset_content, h]
  · intro h bs hbs
    simp [process_skillset_content, h, hs h, hbs]
  · intro h hb
    simp [process_skillset_content, h, hs h, hb]

theorem C2_witness :
    (pyStartswith "httphttp" "http" = true ∧
      (pyB64decode "httphttp").isSome = true ∧
      process_skillset_content pyB64decode getErr fitzErr (.str "httphttp") =
        urlFetch getErr fitzErr "httphttp") ∧
    (pyStartswith "QUJD" "http" = false ∧ pyB64decode "QUJD" = some [65, 66, 67] ∧
      process_skillset_content pyB64decode getErr fitzErr (.str "QUJD") =
        process_pdf fitzErr [65, 66, 67]) ∧
    (pyStartswith "hello world?" "http" = false ∧
      pyB64decode "hello world?" = none ∧
      process_skillset_content pyB64decode getErr fitzErr (.str "hello world?") =
        rawBranch (.str "hello world?")) :=
  ⟨⟨by decide, by decide,
      (C2_content_classification pyB64decode getErr fitzErr "httphttp").1 (by decide)⟩,
   ⟨by decide, by decide,
      (C2_content_classification pyB64decode getErr fitzErr "QUJD").2.1 (by decide)
        [65, 66, 67] (by decide)⟩,
   ⟨by decide, by decide,
      (C2_content_classification pyB64decode getErr fitzErr "hello world?").2.2
        (by decide) (by decide)⟩⟩

/-- C6 as stated is false on the empty string: `base64.b64decode("")`
succeeds with zero bytes, so the resolver forwards the empty string to the
PDF extractor, which reports "PDF data too small to be valid" instead of
"Invalid or empty content". -/
theorem C6_counterexample :
    process_skillset_content pyB64decode getErr fitzErr (.str "") =
      .error "PDF data too small to be valid" ∧
    process_skillset_content pyB64decode getErr fitzErr (.str "") ≠
      .error "Invalid or empty content" := by
  constructor
  · decide
  · decide

/-- C6 amended: a falsy non-string content value, and a truthy non-string
with `__len__` (array, object), yield the error "Invalid or empty content"
(for any decoder, fetcher and PDF opener); a truthy non-string without
`__len__` (number, boolean) instead raises `TypeError` in the line-57
logging f-string, which the lines 101-104 catch-all converts to
"Error processing content: <reason>"; and the empty string decodes as
base64 to zero bytes and yields the PDF extractor's error
"PDF data too small to be valid". -/
theorem C6_invalid_content_amended :
    (∀ (b64 : String → Option ByteSeq) (httpGet : String → FetchResult)
        (fitzOpen : ByteSeq → Except String PdfDoc) (lenRaises : Option String),
      process_skillset_content b64 httpGet fitzOpen (.other false lenRaises) =
        .error "Invalid or empty content") ∧
    (∀ (b64 : String → Option ByteSeq) (httpGet : String → FetchResult)
        (fitzOpen : ByteSeq → Except String PdfDoc) (t : Bool),
      process_skillset_content b64 httpGet fitzOpen (.other t none) =
        .error "Invalid or empty content") ∧
    (∀ (b64 : String → Option ByteSeq) (httpGet : String → FetchResult)
        (fitzOpen : ByteSeq → Except String PdfDoc) (msg : String),
      process_skillset_content b64 httpGet fitzOpen (.other true (some msg)) =
        .error ("Error processing content: " ++ msg)) ∧
    (∀ (httpGet : String → FetchResult) (fitzOpen : ByteSeq → Except String PdfDoc),
      process_skillset_content pyB64decode httpGet fitzOpen (.str "") =
        .error "PDF data too small to be valid") := by
  refine ⟨?_, ?_, ?_, ?_⟩
  · intro b64 httpGet fitzOpen lenRaises
    cases lenRaises <;> rfl
  · intro b64 httpGet fitzOpen t
    rfl
  · intro b64 httpGet fitzOpen msg
    rfl
  · intro httpGet fitzOpen
    rfl

/-- C7 as stated is false: on the empty input the paginator produces one
page (a single newline: the empty final line re-terminated), not zero
pages. -/
theorem C7_counterexample :
    paginate [] = [['\n']] ∧ (paginate []).length ≠ 0 := by
  constructor
  · decide
  · decide

/-- C7 amended: an empty or whitespace-only input never fails, but yields
at least one page rather than zero; the pages concatenate to the input plus
one trailing newline. -/
theorem C7_whitespace_amended (cs : List Char)
    (_hws : ∀ c ∈ cs, c = ' ' ∨ c = '\t' ∨ c = '\n' ∨ c = '\r') :
    paginate cs ≠ [] ∧ (paginate cs).flatten = cs ++ ['\n'] :=
  ⟨paginate_ne_nil cs, paginate_join cs⟩

theorem C7_witness :
    (∀ c ∈ [' '], c = ' ' ∨ c = '\t' ∨ c = '\n' ∨ c = '\r') ∧
    (paginate [' '] ≠ [] ∧ (paginate [' ']).flatten = [' '] ++ ['\n']) :=
  ⟨by decide, C7_whitespace_amended [' '] (by decide)⟩

/-- C4 as stated is false at its own input `"a\n" * 3000`: concatenating
the returned pages does not reproduce the input exactly — the paginator
appends one extra trailing newline. -/
theorem C4_counterexample : (paginate c4Input).flatten ≠ c4Input := by
  intro h
  have hj := paginate_join c4Input
  rw [h] at hj
  have hlen := congrArg List.length hj
  simp only [List.length_append, List.length_cons, List.length_nil] at hlen
  omega

/-- C4 amended: on `"a\n" * 3000` the paginator yields at least two pages,
every page is a concatenation of whole (newline-re-terminated) input lines
in order, and concatenating all pages reproduces the input followed by one
extra trailing newline. -/
theorem C4_pagination_amended :
    2 ≤ (paginate c4Input).length ∧
    (∃ chunks : List (List (List Char)),
      chunks.flatten = splitNl c4Input ∧
      paginate c4Input = chunks.map renderChunk) ∧
    (paginate c4Input).flatten = c4Input ++ ['\n'] :=
  ⟨paginate_c4_two_pages, paginate_chunks c4Input, paginate_join c4Input⟩

/-- C8 as stated is false: a pipeline request whose record lacks the `data`
field is answered through `create_error_response`, which sets no status
code, so the response carries the error envelope but HTTP status 200, not
400. -/
theorem C8_counterexample :
    split_pdf pyB64decode getErr fitzErr reqNoData =
      ⟨200, .pipeline [⟨"r1", .errors ["No data field in request"]⟩]⟩ ∧
    (split_pdf pyB64decode getErr fitzErr reqNoData).status ≠ 400 := by
  constructor
  · decide
  · decide

/-- C8 amended: every pipeline-mode input-validation failure is answered
with the error envelope `values: [recordId, errors]`; malformed JSON and a
missing or empty `values` array get HTTP status 400 with record id "0",
while a missing `data` field and empty content get the envelope with the
record's id but HTTP status 200 (`create_error_response` sets no status
code). -/
theorem C8_validation_responses (b64 : String → Option ByteSeq)
    (httpGet : String → FetchResult) (fitzOpen : ByteSeq → Except String PdfDoc)
    (req : HttpRequest) (hct : hasJsonCT req.contentType = true) :
    (req.json = .error () →
      split_pdf b64 httpGet fitzOpen req =
        ⟨400, .pipeline [⟨"0", .errors ["Invalid JSON in request"]⟩]⟩) ∧
    (∀ rj, req.json = .ok rj → (rj.values = none ∨ rj.values = some []) →
      split_pdf b64 httpGet fitzOpen req =
        ⟨400, .pipeline
          [⟨"0", .errors ["Invalid request format: missing \x27values\x27 array"]⟩]⟩) ∧
    (∀ rj v0 rest, req.json = .ok rj → rj.values = some (v0 :: rest) →
      v0.data = none →
      split_pdf b64 httpGet fitzOpen req =
        ⟨200, .pipeline
          [⟨v0.recordId.getD "0", .errors ["No data field in request"]⟩]⟩) ∧
    (∀ rj v0 rest d, req.json = .ok rj → rj.values = some (v0 :: rest) →
      v0.data = some d → (d.content.getD (.str "")).truthy = false →
      split_pdf b64 httpGet fitzOpen req =
        ⟨200, .pipeline
          [⟨v0.recordId.getD "0", .errors ["No content provided in request"]⟩]⟩) := by
  refine ⟨?_, ?_, ?_, ?_⟩
  · intro hj
    simp [split_pdf, hct, hj]
  · intro rj hj hv
    rcases hv with hv | hv <;> simp [split_pdf, hct, hj, hv]
  · intro rj v0 rest hj hv hd
    simp [split_pdf, hct, hj, hv, hd, create_error_response]
  · intro rj v0 rest d hj hv hd hcontent
    simp [split_pdf, hct, hj, hv, hd, hcontent, create_error_response]

theorem C8_witness :
    (hasJsonCT "application/json" = true) ∧
    split_pdf pyB64decode getErr fitzErr reqBadJson =
      ⟨400, .pipeline [⟨"0", .errors ["Invalid JSON in request"]⟩]⟩ ∧
    split_pdf pyB64decode getErr fitzErr reqNoValues =
      ⟨400, .pipeline
        [⟨"0", .errors ["Invalid request format: missing \x27values\x27 array"]⟩]⟩ ∧
    split_pdf pyB64decode getErr fitzErr reqNoData =
      ⟨200, .pipeline [⟨"r1", .errors ["No data field in request"]⟩]⟩ ∧
    split_pdf pyB64decode getErr fitzErr reqNoContent =
      ⟨200, .pipeline [⟨"0", .errors ["No content provided in request"]⟩]⟩ :=
  ⟨by decide,
    (C8_validation_responses pyB64decode getErr fitzErr reqBadJson (by decide)).1 rfl,
    (C8_validation_responses pyB64decode getErr fitzErr reqNoValues (by decide)).2.1
      ⟨none⟩ rfl (Or.inl rfl),
    (C8_validation_responses pyB64decode getErr fitzErr reqNoData (by decide)).2.2.1
      ⟨some [⟨some "r1", none⟩]⟩ ⟨some "r1", none⟩ [] rfl rfl rfl,
    (C8_validation_responses pyB64decode getErr fitzErr reqNoContent (by decide)).2.2.2
      ⟨some [⟨none, some ⟨none⟩⟩]⟩ ⟨none, some ⟨none⟩⟩ [] ⟨none⟩ rfl rfl rfl
      (by decide)⟩

/-- C10: in pipeline mode only the first record of the `values` array is
processed — the response is identical to the one for the request containing
just that record — and the response envelope always carries exactly one
record. -/
theorem C10_first_record_only (b64 : String → Option ByteSeq)
    (httpGet : String → FetchResult) (fitzOpen : ByteSeq → Except String PdfDoc)
    (ct : String) (v0 : SkillRecord) (rest : List SkillRecord) (rb : ByteSeq)
    (hct : hasJsonCT ct = true) :
    split_pdf b64 httpGet fitzOpen ⟨ct, .ok ⟨some (v0 :: rest)⟩, rb⟩ =
      split_pdf b64 httpGet fitzOpen ⟨ct, .ok ⟨some [v0]⟩, rb⟩ ∧
    ∃ recs, (split_pdf b64 httpGet fitzOpen ⟨ct, .ok ⟨some (v0 :: rest)⟩, rb⟩).body =
      .pipeline recs ∧ recs.length = 1 := by
  constructor
  · simp [split_pdf, hct]
  · simp only [split_pdf, hct, if_true]
    cases hd : v0.data with
    | none => exact ⟨_, rfl, rfl⟩
    | some d =>
      by_cases ht : (d.content.getD (.str "")).truthy
      · simp only [ht, Bool.not_true, Bool.false_eq_true, if_false]
        cases hout : process_skillset_content b64 httpGet fitzOpen
            (d.content.getD (.str "")) with
        | error e => exact ⟨_, rfl, rfl⟩
        | ok pages => exact ⟨_, rfl, rfl⟩
      · simp only [Bool.not_eq_true] at ht
        simp only [ht, Bool.not_false, if_true]
        exact ⟨_, rfl, rfl⟩

theorem C10_witness :
    (hasJsonCT "application/json" = true) ∧
    split_pdf pyB64decode getErr fitzErr
        ⟨"application/json", .ok ⟨some [⟨some "a", none⟩, ⟨some "b", none⟩]⟩, []⟩ =
      split_pdf pyB64decode getErr fitzErr
        ⟨"application/json", .ok ⟨some [⟨some "a", none⟩]⟩, []⟩ ∧
    ∃ recs,
      (split_pdf pyB64decode getErr fitzErr
        ⟨"application/json", .ok ⟨some [⟨some "a", none⟩, ⟨some "b", none⟩]⟩, []⟩).body =
        .pipeline recs ∧ recs.length = 1 :=
  ⟨by decide,
    C10_first_record_only pyB64decode getErr fitzErr "application/json"
      ⟨some "a", none⟩ [⟨some "b", none⟩] [] (by decide)⟩
